import Mathlib

/-!
Verification of the flow2api credential-pool manager.

Shallow embedding of `src/services/token_manager.py` and
`src/services/token_refresh_scheduler.py`. The durable store is a pure
`Store` value; external calls (`FlowClient.st_to_at`, `get_credits`,
`create_project`) are oracle functions returning `Except`, so one embedding
quantifies over every possible outcome of the external service. Timestamps
are integers counting seconds (the Python code compares
`total_seconds() < 3600` on timezone-normalised datetimes, which on whole
seconds is exactly integer comparison). Python exceptions are `Except`
values; a `try/except` block is a `match` on the `Except`.

The persistence layer (`src/core/database.py`) is not part of the sources;
its record/statistics primitives are modelled from the specification's
CredentialStore contract and marked `Modelled from the spec:` below.
-/

/-- Modelled from the spec: per-credential statistics row kept by the
CredentialStore (`database.py` is missing from the sources). The
consecutive-error counter drives auto-quarantine and resets on success;
`error_count`, `today_error_count` and the image/video counters are the
cumulative historical counters used only for reporting. -/
structure TokenStats where
  consecutive_error_count : Nat := 0
  error_count : Nat := 0
  today_error_count : Nat := 0
  image_count : Nat := 0
  video_count : Nat := 0
  today_image_count : Nat := 0
  today_video_count : Nat := 0
deriving DecidableEq

/-- The zero statistics row a fresh credential starts from. -/
def zeroStats : TokenStats := {}

/-- A credential record, with the columns `token_manager.py` reads and
writes. `at` and `at_expires` are nullable in the store. -/
structure Token where
  id : Nat
  st : String
  «at» : Option String := none
  at_expires : Option Int := none
  email : String := ""
  name : String := ""
  remark : Option String := none
  is_active : Bool := true
  credits : Int := 0
  user_paygate_tier : Option String := none
  current_project_id : Option String := none
  current_project_name : Option String := none
  image_enabled : Bool := true
  video_enabled : Bool := true
  image_concurrency : Int := -1
  video_concurrency : Int := -1
deriving DecidableEq

/-- A project binding row, as built in `TokenManager.add_token` step 7. -/
structure Project where
  project_id : String
  token_id : Nat
  project_name : String
  tool_name : String
deriving DecidableEq

/-- Modelled from the spec: hot-reloadable admin configuration holding
`errorBanThreshold` (`get_admin_config` lives in the missing
`database.py`). -/
structure AdminConfig where
  error_ban_threshold : Nat := 3
deriving DecidableEq

/-- The durable store: credential rows, statistics rows keyed by token id,
project rows, and the admin configuration. -/
structure Store where
  tokens : List Token
  stats : List (Nat × TokenStats) := []
  projects : List Project := []
  admin_config : AdminConfig := {}
deriving DecidableEq

/-- Modelled from the spec: `CredentialStore.get(id)` — first row with the
given id. -/
def get_token (s : Store) (token_id : Nat) : Option Token :=
  s.tokens.find? (fun t => t.id = token_id)

/-- Modelled from the spec: `CredentialStore.getBySecret(secret)`. -/
def get_token_by_st (s : Store) (st : String) : Option Token :=
  s.tokens.find? (fun t => t.st = st)

/-- Update every row whose id matches, as a SQL `UPDATE ... WHERE id = ?`
does; our update functions never change the id column. -/
def mapTokensWithId (s : Store) (token_id : Nat) (f : Token → Token) : Store :=
  { s with tokens := s.tokens.map (fun t => if t.id = token_id then f t else t) }

/-- `db.update_token(id, is_active=False)` — `TokenManager.disable_token`. -/
def disable_token (s : Store) (token_id : Nat) : Store :=
  mapTokensWithId s token_id (fun t => { t with is_active := false })

/-- `db.update_token(id, at=new_at, at_expires=new_at_expires)` as issued by
`TokenManager._refresh_at` (the new expiry replaces the old even when the
new one is null). -/
def db_update_token_at (s : Store) (token_id : Nat) (new_at : String)
    (new_at_expires : Option Int) : Store :=
  mapTokensWithId s token_id
    (fun t => { t with «at» := some new_at, at_expires := new_at_expires })

/-- `db.update_token(id, credits=...)`. -/
def db_update_token_credits (s : Store) (token_id : Nat) (credits : Int) : Store :=
  mapTokensWithId s token_id (fun t => { t with credits := credits })

/-- Modelled from the spec: `incrementStat` on the stats table — updates the
existing row or inserts a fresh one (atomic counter increments). -/
def statsIncr (l : List (Nat × TokenStats)) (token_id : Nat)
    (f : TokenStats → TokenStats) : List (Nat × TokenStats) :=
  match l with
  | [] => [(token_id, f zeroStats)]
  | (j, st) :: rest =>
      if j = token_id then (j, f st) :: rest else (j, st) :: statsIncr rest token_id f

/-- Modelled from the spec: a SQL-style `UPDATE` on the stats table — a
no-op when the row is absent. -/
def statsUpdate (l : List (Nat × TokenStats)) (token_id : Nat)
    (f : TokenStats → TokenStats) : List (Nat × TokenStats) :=
  l.map (fun p => if p.1 = token_id then (p.1, f p.2) else p)

/-- Read a credential's statistics row, defaulting to the zero row. -/
def lookupStats (l : List (Nat × TokenStats)) (token_id : Nat) : TokenStats :=
  ((l.find? (fun p => p.1 = token_id)).map Prod.snd).getD zeroStats

/-- Modelled from the spec: the effect of `incrementStat(id, error)` — the
consecutive-error counter and the historical (total and daily) error
counters all advance by one. -/
def incError (st : TokenStats) : TokenStats :=
  { st with
    consecutive_error_count := st.consecutive_error_count + 1
    error_count := st.error_count + 1
    today_error_count := st.today_error_count + 1 }

/-- Modelled from the spec: `resetConsecutiveErrors(id)` — only the
consecutive-error counter is cleared; historical totals stay. -/
def resetConsec (st : TokenStats) : TokenStats :=
  { st with consecutive_error_count := 0 }

/-- Whether the (first) row with this id exists and is active. -/
def token_is_active (s : Store) (token_id : Nat) : Bool :=
  ((get_token s token_id).map (fun t => t.is_active)).getD false

/-- The user block of a successful secret-to-token exchange
(`result.get("user", {})` in `add_token`). -/
structure UserInfo where
  email : String := ""
  name : Option String := none
deriving DecidableEq

/-- A successful `st_to_at` response. `expires` is the already-parsed expiry
timestamp: the Python callers run `datetime.fromisoformat` inside a
`try/except` and fall back to `None`, so the only observable outcomes are a
parsed timestamp or null, which `Option Int` captures exactly. -/
structure StToAtResult where
  access_token : String
  expires : Option Int := none
  user : UserInfo := {}
deriving DecidableEq

/-- A successful `get_credits` response. -/
structure CreditsResult where
  credits : Int := 0
  userPaygateTier : Option String := none
deriving DecidableEq

/-- The external client (`FlowClient`) as an oracle: each call either raises
(`Except.error`) or returns a value, covering every behaviour of the real
network client. -/
structure FlowClient where
  st_to_at : String → Except String StToAtResult
  get_credits : String → Except String CreditsResult
  create_project : String → String → Except String String

/-- Outcome of `TokenManager._refresh_at`: the boolean the method returns,
the store it leaves behind, and whether a secret-to-token exchange was
attempted (for observing external calls). -/
structure RefreshOut where
  result : Bool
  store : Store
  exchanged : Bool
deriving DecidableEq

/-- `TokenManager._refresh_at` (token_manager.py lines 249-302), body inside
the lock. Missing record: return false untouched. Exchange failure: the
`except` block disables the token and returns false. Exchange success:
persist the new access token and expiry, then best-effort refresh credits
(its own `try/except: pass`), and return true. The method itself never
raises: every `Except.error` of the client is consumed here. -/
def refresh_at (fc : FlowClient) (s : Store) (token_id : Nat) : RefreshOut :=
  match get_token s token_id with
  | none => ⟨false, s, false⟩
  | some token =>
      match fc.st_to_at token.st with
      | .error _ => ⟨false, disable_token s token_id, true⟩
      | .ok r =>
          let s1 := db_update_token_at s token_id r.access_token r.expires
          let s2 :=
            match fc.get_credits r.access_token with
            | .ok cr => db_update_token_credits s1 token_id cr.credits
            | .error _ => s1
          ⟨true, s2, true⟩

/-- Python truthiness of a nullable string: `not token.at` holds when the
column is null or the empty string. -/
def strFalsy : Option String → Bool
  | none => true
  | some s => s = ""

/-- Outcome of `TokenManager.is_at_valid`: returned boolean, resulting
store, whether `_refresh_at` was invoked, and whether an exchange was
attempted. -/
structure ATCheck where
  result : Bool
  store : Store
  refreshed : Bool
  exchanged : Bool
deriving DecidableEq

/-- `TokenManager.is_at_valid` (token_manager.py lines 211-247). `now` is
the current time in seconds; the timezone normalisation of the source
(naive timestamps are interpreted as UTC) is the identity on integer
timestamps. -/
def is_at_valid (fc : FlowClient) (s : Store) (now : Int) (token_id : Nat) : ATCheck :=
  match get_token s token_id with
  | none => ⟨false, s, false, false⟩
  | some token =>
      if strFalsy token.«at» then
        let r := refresh_at fc s token_id
        ⟨r.result, r.store, true, r.exchanged⟩
      else
        match token.at_expires with
        | none =>
            let r := refresh_at fc s token_id
            ⟨r.result, r.store, true, r.exchanged⟩
        | some e =>
            if e - now < 3600 then
              let r := refresh_at fc s token_id
              ⟨r.result, r.store, true, r.exchanged⟩
            else ⟨true, s, false, false⟩

/-- True exactly on `Except.error`. -/
def isErr {α : Type} (e : Except String α) : Bool :=
  match e with
  | .error _ => true
  | .ok _ => false

/-- Append a credential row; the store assigns `new_id`
(`db.add_token` returns the fresh row id). -/
def db_add_token (s : Store) (t : Token) : Store :=
  { s with tokens := s.tokens ++ [t] }

/-- Append a project row (`db.add_project`). -/
def db_add_project (s : Store) (p : Project) : Store :=
  { s with projects := s.projects ++ [p] }

/-- `TokenManager.add_token` (token_manager.py lines 51-166). Returns the
raised error or the created token, paired with the store as left behind
(store writes made before a raise would persist; none occur before step 6).
`default_project_name` stands for the `strftime`-generated name and
`new_id` for the id the store assigns at insert. -/
def add_token (fc : FlowClient) (s : Store) (default_project_name : String)
    (st : String) (project_id? : Option String) (project_name? : Option String)
    (remark : Option String) (image_enabled : Bool) (video_enabled : Bool)
    (image_concurrency : Int) (video_concurrency : Int) (new_id : Nat) :
    Except String Token × Store :=
  match get_token_by_st s st with
  | some _ => (.error "Token already exists", s)
  | none =>
      match fc.st_to_at st with
      | .error e => (.error ("ST to AT failed: " ++ e), s)
      | .ok r =>
          let email := r.user.email
          let name := r.user.name.getD
            (if email ≠ "" then (email.splitOn "@").headD "" else "")
          let cr :=
            match fc.get_credits r.access_token with
            | .ok c => c
            | .error _ => ⟨0, none⟩
          let project_name := project_name?.getD default_project_name
          let pid :=
            match project_id? with
            | some pid => Except.ok pid
            | none => fc.create_project st project_name
          match pid with
          | .error e => (.error ("Project creation failed: " ++ e), s)
          | .ok project_id =>
              let token : Token :=
                { id := new_id, st := st, «at» := some r.access_token,
                  at_expires := r.expires, email := email, name := name,
                  remark := remark, is_active := true, credits := cr.credits,
                  user_paygate_tier := cr.userPaygateTier,
                  current_project_id := some project_id,
                  current_project_name := some project_name,
                  image_enabled := image_enabled, video_enabled := video_enabled,
                  image_concurrency := image_concurrency,
                  video_concurrency := video_concurrency }
              let s1 := db_add_token s token
              let s2 := db_add_project s1
                ⟨project_id, new_id, project_name, "PINHOLE"⟩
              (.ok token, s2)

/-- `TokenManager.record_error` (token_manager.py lines 357-370): increment
the error statistics, then re-read the stats row and the hot-reloadable
admin config; disable the token when the consecutive count has reached the
threshold. -/
def record_error (s : Store) (token_id : Nat) : Store :=
  let s1 := { s with stats := statsIncr s.stats token_id incError }
  match s1.stats.find? (fun p => p.1 = token_id) with
  | none => s1
  | some p =>
      if p.2.consecutive_error_count ≥ s1.admin_config.error_ban_threshold then
        disable_token s1 token_id
      else s1

/-- `TokenManager.record_success` (token_manager.py lines 372-378): reset
the consecutive-error counter only. -/
def record_success (s : Store) (token_id : Nat) : Store :=
  { s with stats := statsUpdate s.stats token_id resetConsec }

/-- `TokenManager.enable_token` (token_manager.py lines 38-43): set the row
active, then reset the consecutive-error counter. -/
def enable_token (s : Store) (token_id : Nat) : Store :=
  let s1 := mapTokensWithId s token_id (fun t => { t with is_active := true })
  { s1 with stats := statsUpdate s1.stats token_id resetConsec }

/-- The scheduler's snapshot query
`SELECT id, st FROM tokens WHERE is_active = 1`
(token_refresh_scheduler.py line 82). -/
def scheduler_fetch_active (s : Store) : List (Nat × String) :=
  (s.tokens.filter (fun t => t.is_active)).map (fun t => (t.id, t.st))

/-- One credential's refresh inside the scheduler cycle
(token_refresh_scheduler.py lines 94-137): direct exchange, persist token
and expiry on success (plus best-effort credits), disable the row on
failure. Note this path calls `flow_client.st_to_at` directly — it does not
go through `TokenManager._refresh_at` and takes no lock. -/
def sched_refresh_one (fc : FlowClient) (s : Store) (token_id : Nat) (st : String) : Store :=
  match fc.st_to_at st with
  | .ok r =>
      let s1 := db_update_token_at s token_id r.access_token r.expires
      match fc.get_credits r.access_token with
      | .ok cr => db_update_token_credits s1 token_id cr.credits
      | .error _ => s1
  | .error _ => disable_token s token_id

/-- One iteration of the scheduler's `for token_id, st in active_tokens`
loop, also recording which ids were attempted (an `st_to_at` call was
made). Rows with an empty secret are skipped (`if not st: continue`); the
body's own `try/except` keeps any failure local to this entry. -/
def sched_step (fc : FlowClient) (acc : Store × List Nat) (e : Nat × String) :
    Store × List Nat :=
  if e.2 = "" then acc
  else (sched_refresh_one fc acc.1 e.1 e.2, acc.2 ++ [e.1])

/-- `TokenRefreshScheduler._update_tokens` (token_refresh_scheduler.py lines
68-139): snapshot the active rows, then process each in order. Returns the
final store and the trace of ids for which an exchange was attempted. -/
def update_tokens (fc : FlowClient) (s : Store) : Store × List Nat :=
  (scheduler_fetch_active s).foldl (sched_step fc) (s, [])

/-- Outcome of one `_update_tokens` call as seen by the scheduler loop's
`try/except` blocks. -/
inductive CycleOutcome
  | ok
  | cancelled
  | failed
deriving DecidableEq

/-- What `_run_scheduler` does after a cycle. -/
inductive LoopAction
  | exitLoop
  | sleepThenContinue
  | backoffThenContinue
deriving DecidableEq

/-- One iteration of `TokenRefreshScheduler._run_scheduler`
(token_refresh_scheduler.py lines 42-66): a disabled scheduler exits;
`CancelledError` breaks the loop; any other exception is caught and
followed by the shortened backoff; a normal cycle sleeps the configured
interval. -/
def run_scheduler_iteration (enabled : Bool) (outcome : CycleOutcome) : LoopAction :=
  if enabled then
    match outcome with
    | .cancelled => .exitLoop
    | .failed => .backoffThenContinue
    | .ok => .sleepThenContinue
  else .exitLoop

/-- Atomic actions of the refresh call paths, for the interleaving model:
acquiring/releasing `TokenManager._lock` and the start/end of one
secret-to-token exchange (the in-flight window of the external call). -/
inductive RAction
  | lockAcq
  | lockRel
  | exStart
  | exEnd
deriving DecidableEq

/-- State of the interleaving model: who holds `TokenManager._lock`, each
task's remaining actions, and how many exchanges are in flight (the fake
client's concurrency counter). -/
structure CSys where
  lock : Option Nat
  tasks : List (List RAction)
  inFlight : Nat
deriving DecidableEq

/-- The action sequence of `TokenManager._refresh_at`: the exchange happens
inside `async with self._lock`. -/
def refreshPath : List RAction := [.lockAcq, .exStart, .exEnd, .lockRel]

/-- The action sequence of one scheduler-cycle refresh: `_update_tokens`
calls `flow_client.st_to_at` directly, acquiring no lock. -/
def schedPath : List RAction := [.exStart, .exEnd]

/-- Execute the next action of task `i`, if enabled: lock acquisition
blocks while the lock is held, release requires ownership; an exchange
start/end adjusts the in-flight counter. At an `await` boundary any task
may be scheduled, so traces are arbitrary interleavings. -/
def stepTask (sys : CSys) (i : Nat) : Option CSys :=
  match sys.tasks.get? i with
  | none => none
  | some [] => none
  | some (a :: rest) =>
      let tasks1 := sys.tasks.set i rest
      match a with
      | .lockAcq =>
          match sys.lock with
          | none => some { lock := some i, tasks := tasks1, inFlight := sys.inFlight }
          | some _ => none
      | .lockRel =>
          match sys.lock with
          | some j =>
              if j = i then
                some { lock := none, tasks := tasks1, inFlight := sys.inFlight }
              else none
          | none => none
      | .exStart => some { sys with tasks := tasks1, inFlight := sys.inFlight + 1 }
      | .exEnd => some { sys with tasks := tasks1, inFlight := sys.inFlight - 1 }

/-- Run a schedule (a list of task indices); `none` when the schedule picks
a blocked or finished task. -/
def runSched (sys : CSys) : List Nat → Option CSys
  | [] => some sys
  | i :: rest => (stepTask sys i).bind (fun s => runSched s rest)

/-- Remaining programs of a task that currently holds the lock. -/
def lockedProg (p : List RAction) : Bool :=
  p = [.exStart, .exEnd, .lockRel] || p = [.exEnd, .lockRel] || p = [.lockRel]

/-- Remaining program of a task whose exchange is in flight. -/
def exchProg (p : List RAction) : Bool :=
  p = [.exEnd, .lockRel]

/-- Remaining programs reachable from `refreshPath`. -/
def suffixOk (p : List RAction) : Bool :=
  p = refreshPath || lockedProg p || p = []

/-- Number of tasks whose remaining program satisfies `f`. -/
def countP (f : List RAction → Bool) (ts : List (List RAction)) : Nat :=
  (ts.filter f).length

/-- Invariant of a pool of `refreshPath` tasks: every remaining program is
a suffix of `refreshPath`, the in-flight counter counts the exchanging
tasks, and the lock owner is the unique lock-holding task. -/
def CInv (sys : CSys) : Prop :=
  (∀ p ∈ sys.tasks, suffixOk p = true)
  ∧ sys.inFlight = countP exchProg sys.tasks
  ∧ (match sys.lock with
     | none => countP lockedProg sys.tasks = 0
     | some i =>
         countP lockedProg sys.tasks = 1
         ∧ ∃ p, sys.tasks.get? i = some p ∧ lockedProg p = true)

/-- Snapshot entries the scheduler cycle actually attempts: those with a
non-empty session secret. -/
def hasSt (e : Nat × String) : Bool :=
  if e.2 = "" then false else true

/-- A fake external client whose calls all succeed. -/
def fcGood : FlowClient :=
  ⟨fun _ => .ok ⟨"newAT", some 5000, {}⟩,
   fun _ => .ok {},
   fun _ _ => .ok "proj-1"⟩

/-- A fake external client whose calls all fail. -/
def fcBad : FlowClient :=
  ⟨fun _ => .error "boom",
   fun _ => .error "boom",
   fun _ _ => .error "boom"⟩

/-- A fake external client where the exchange succeeds but project creation
fails. -/
def fcNoProject : FlowClient :=
  ⟨fun _ => .ok ⟨"newAT", some 5000, {}⟩,
   fun _ => .ok {},
   fun _ _ => .error "down"⟩

/-- A fresh active credential with no cached access token. -/
def blankTok : Token :=
  { id := 1, st := "s1" }

/-- A credential whose stored access token is the empty string and whose
expiry is far in the future. -/
def emptyATTok : Token :=
  { id := 1, st := "s1", «at» := some "", at_expires := some 1000000 }

/-- Store holding only `emptyATTok`. -/
def emptyATStore : Store :=
  { tokens := [emptyATTok] }

/-- Store holding only `blankTok` (threshold 3, empty statistics). -/
def demoStore : Store :=
  { tokens := [blankTok] }

/-- Store holding `blankTok` with an ongoing error streak of 2 and
historical totals. -/
def streakStore : Store :=
  { tokens := [blankTok],
    stats := [(1, { consecutive_error_count := 2, error_count := 5,
                    today_error_count := 2 })] }

/-- The empty store. -/
def emptyStore : Store :=
  { tokens := [] }

/-! ## Helper lemmas about the store -/

/-- `find?` over an id-preserving row update returns the updated row. -/
theorem get_token_mapTokensWithId (s : Store) (token_id j : Nat) (f : Token → Token)
    (hf : ∀ t, (f t).id = t.id) :
    get_token (mapTokensWithId s token_id f) j
      = Option.map (fun t => if t.id = token_id then f t else t) (get_token s j) := by
  unfold get_token mapTokensWithId
  rw [List.find?_map]
  have hpred : ((fun t => decide (t.id = j)) ∘ fun t => if t.id = token_id then f t else t)
      = fun t => decide (t.id = j) := by
    funext t
    by_cases h : t.id = token_id
    · simp [Function.comp, h, hf]
    · simp [Function.comp, h]
  rw [hpred]

/-- Reading back the updated id after an id-preserving row update. -/
theorem get_token_mapTokensWithId_self (s : Store) (token_id : Nat) (f : Token → Token)
    (hf : ∀ t, (f t).id = t.id) :
    get_token (mapTokensWithId s token_id f) token_id
      = Option.map f (get_token s token_id) := by
  rw [get_token_mapTokensWithId s token_id token_id f hf]
  cases hg : get_token s token_id with
  | none => rfl
  | some t =>
      have ht : t.id = token_id := by
        have := List.find?_some hg
        simpa using this
      simp [ht]

/-- After an increment, the row is present and holds the incremented
value. -/
theorem find?_statsIncr_self (l : List (Nat × TokenStats)) (token_id : Nat)
    (f : TokenStats → TokenStats) :
    (statsIncr l token_id f).find? (fun p => p.1 = token_id)
      = some (token_id, f (lookupStats l token_id)) := by
  induction l with
  | nil => simp [statsIncr, lookupStats, List.find?]
  | cons hd tl ih =>
      obtain ⟨j, st⟩ := hd
      by_cases h : j = token_id
      · subst h
        simp [statsIncr, lookupStats, List.find?]
      · simp [statsIncr, h, lookupStats, List.find?] at ih ⊢
        exact ih

/-- Reading the stats row after an increment. -/
theorem lookupStats_statsIncr_self (l : List (Nat × TokenStats)) (token_id : Nat)
    (f : TokenStats → TokenStats) :
    lookupStats (statsIncr l token_id f) token_id = f (lookupStats l token_id) := by
  unfold lookupStats
  rw [find?_statsIncr_self]
  rfl

/-- An increment leaves other credentials' stats rows unchanged. -/
theorem lookupStats_statsIncr_ne (l : List (Nat × TokenStats)) (token_id j : Nat)
    (f : TokenStats → TokenStats) (h : j ≠ token_id) :
    lookupStats (statsIncr l token_id f) j = lookupStats l j := by
  induction l with
  | nil => simp [statsIncr, lookupStats, List.find?, Ne.symm h]
  | cons hd tl ih =>
      obtain ⟨k, st⟩ := hd
      by_cases hk : k = token_id
      · subst hk
        simp [statsIncr, lookupStats, List.find?, Ne.symm h]
      · by_cases hkj : k = j
        · subst hkj
          simp [statsIncr, hk, lookupStats, List.find?]
        · simp [statsIncr, hk, lookupStats, List.find?, hkj] at ih ⊢
          exact ih

/-- Reading the stats row after a reset-style update (`resetConsec` fixes
the zero row, so a missing row is indistinguishable from a reset one). -/
theorem lookupStats_statsUpdate_self (l : List (Nat × TokenStats)) (token_id : Nat)
    (f : TokenStats → TokenStats) (hz : f zeroStats = zeroStats) :
    lookupStats (statsUpdate l token_id f) token_id = f (lookupStats l token_id) := by
  induction l with
  | nil => simp [statsUpdate, lookupStats, List.find?, hz]
  | cons hd tl ih =>
      obtain ⟨k, st⟩ := hd
      by_cases hk : k = token_id
      · subst hk
        simp [statsUpdate, lookupStats, List.find?]
      · simp [statsUpdate, lookupStats, List.find?, hk] at ih ⊢
        exact ih

/-- A reset-style update leaves other credentials' stats rows unchanged. -/
theorem lookupStats_statsUpdate_ne (l : List (Nat × TokenStats)) (token_id j : Nat)
    (f : TokenStats → TokenStats) (h : j ≠ token_id) :
    lookupStats (statsUpdate l token_id f) j = lookupStats l j := by
  induction l with
  | nil => simp [statsUpdate, lookupStats, List.find?]
  | cons hd tl ih =>
      obtain ⟨k, st⟩ := hd
      by_cases hk : k = token_id
      · subst hk
        simp [statsUpdate, lookupStats, List.find?, Ne.symm h] at ih ⊢
        exact ih
      · by_cases hkj : k = j
        · subst hkj
          simp [statsUpdate, hk, lookupStats, List.find?]
        · simp [statsUpdate, hk, lookupStats, List.find?, hkj] at ih ⊢
          exact ih

/-- `record_error` in closed form: increment the error statistics, then
quarantine exactly when the incremented consecutive count has reached the
threshold read from the current admin config. -/
theorem record_error_eq (s : Store) (token_id : Nat) :
    record_error s token_id
      = (if s.admin_config.error_ban_threshold
            ≤ (lookupStats s.stats token_id).consecutive_error_count + 1
         then disable_token { s with stats := statsIncr s.stats token_id incError } token_id
         else { s with stats := statsIncr s.stats token_id incError }) := by
  unfold record_error
  dsimp only
  rw [find?_statsIncr_self]
  simp [incError]

/-! ## Claim theorems -/

/-- C3: `_refresh_at` never raises: every outcome of the external client is
consumed into a boolean. On exchange failure the credential is quarantined
(`disable_token`, i.e. `is_active = false`) and the method returns false;
on exchange success the new access token and expiry are persisted and the
method returns true — whatever the best-effort balance refresh does. -/
theorem refresh_at_absorbs_failure (fc : FlowClient) (s : Store) (token_id : Nat)
    (token : Token) (h : get_token s token_id = some token) :
    (∀ e, fc.st_to_at token.st = .error e →
        refresh_at fc s token_id = ⟨false, disable_token s token_id, true⟩)
    ∧ (∀ r, fc.st_to_at token.st = .ok r →
        (refresh_at fc s token_id).result = true
        ∧ (refresh_at fc s token_id).exchanged = true
        ∧ ∃ t', get_token (refresh_at fc s token_id).store token_id = some t'
            ∧ t'.«at» = some r.access_token ∧ t'.at_expires = r.expires) := by
  constructor
  · intro e he
    unfold refresh_at
    rw [h]
    dsimp only
    rw [he]
  · intro r hr
    unfold refresh_at
    rw [h]
    dsimp only
    rw [hr]
    dsimp only
    refine ⟨rfl, rfl, ?_⟩
    have hupd : get_token (db_update_token_at s token_id r.access_token r.expires) token_id
        = some { token with «at» := some r.access_token, at_expires := r.expires } := by
      unfold db_update_token_at
      rw [get_token_mapTokensWithId_self s token_id
        (fun t => { t with «at» := some r.access_token, at_expires := r.expires })
        (fun t => rfl), h]
      rfl
    cases hcr : fc.get_credits r.access_token with
    | error e =>
        exact ⟨_, hupd, rfl, rfl⟩
    | ok cr =>
        have hupd2 : get_token (db_update_token_credits
            (db_update_token_at s token_id r.access_token r.expires) token_id cr.credits)
              token_id
            = some { token with
                      «at» := some r.access_token, at_expires := r.expires,
                      credits := cr.credits } := by
          unfold db_update_token_credits
          rw [get_token_mapTokensWithId_self _ token_id
            (fun t => { t with credits := cr.credits }) (fun t => rfl), hupd]
          rfl
        exact ⟨_, hupd2, rfl, rfl⟩

/-- C3 witness: a failing exchange on a concrete store. -/
theorem refresh_at_absorbs_failure_witness :
    refresh_at fcBad demoStore 1 = ⟨false, disable_token demoStore 1, true⟩ :=
  (refresh_at_absorbs_failure fcBad demoStore 1 blankTok (by rfl)).1 "boom" rfl

/-- C4: `record_error` advances the consecutive and historical (total and
daily) error counters by one, reads the hot-reloadable threshold at call
time, and quarantines the credential exactly when the new consecutive count
has reached it; with threshold 3 and no intervening success, a fresh
credential is disabled by the third call and not before. -/
theorem record_error_threshold_quarantine (s : Store) (token_id : Nat) :
    lookupStats (record_error s token_id).stats token_id
      = incError (lookupStats s.stats token_id)
    ∧ (record_error s token_id).admin_config = s.admin_config
    ∧ get_token (record_error s token_id) token_id
        = (if s.admin_config.error_ban_threshold
              ≤ (lookupStats s.stats token_id).consecutive_error_count + 1
           then Option.map (fun t => { t with is_active := false }) (get_token s token_id)
           else get_token s token_id)
    ∧ token_is_active (record_error demoStore 1) 1 = true
    ∧ token_is_active (record_error (record_error demoStore 1) 1) 1 = true
    ∧ token_is_active (record_error (record_error (record_error demoStore 1) 1) 1) 1
        = false := by
  refine ⟨?_, ?_, ?_, by decide, by decide, by decide⟩
  · rw [record_error_eq]
    split
    · exact lookupStats_statsIncr_self s.stats token_id incError
    · exact lookupStats_statsIncr_self s.stats token_id incError
  · rw [record_error_eq]
    split <;> rfl
  · rw [record_error_eq]
    by_cases hth : s.admin_config.error_ban_threshold
        ≤ (lookupStats s.stats token_id).consecutive_error_count + 1
    · rw [if_pos hth, if_pos hth]
      unfold disable_token
      rw [get_token_mapTokensWithId_self _ token_id
        (fun t => { t with is_active := false }) (fun t => rfl)]
      rfl
    · rw [if_neg hth, if_neg hth]
      rfl

/-- C5: `record_success` resets the consecutive-error counter to 0 and
nothing else — token rows, projects, config and every historical statistic
are untouched, other credentials' rows included; after one success on a
streak of 2 with threshold 3, three further consecutive errors are needed
to quarantine (and not fewer), while without the success a single further
error quarantines. -/
theorem record_success_resets_only_consecutive (s : Store) (token_id : Nat) :
    (record_success s token_id).tokens = s.tokens
    ∧ (record_success s token_id).projects = s.projects
    ∧ (record_success s token_id).admin_config = s.admin_config
    ∧ lookupStats (record_success s token_id).stats token_id
        = { lookupStats s.stats token_id with consecutive_error_count := 0 }
    ∧ (∀ j, j ≠ token_id →
        lookupStats (record_success s token_id).stats j = lookupStats s.stats j)
    ∧ token_is_active (record_error streakStore 1) 1 = false
    ∧ token_is_active (record_error (record_success streakStore 1) 1) 1 = true
    ∧ token_is_active
        (record_error (record_error (record_success streakStore 1) 1) 1) 1 = true
    ∧ token_is_active
        (record_error (record_error (record_error (record_success streakStore 1) 1) 1) 1) 1
        = false := by
  refine ⟨rfl, rfl, rfl, ?_, ?_, by decide, by decide, by decide, by decide⟩
  · exact lookupStats_statsUpdate_self s.stats token_id resetConsec rfl
  · intro j hj
    exact lookupStats_statsUpdate_ne s.stats token_id j resetConsec hj

/-- C5 witness: on a concrete store, another credential's stats are
untouched. -/
theorem record_success_resets_only_consecutive_witness :
    lookupStats (record_success streakStore 1).stats 2 = lookupStats streakStore.stats 2 :=
  (record_success_resets_only_consecutive streakStore 1).2.2.2.2.1 2 (by decide)

/-- C9: `add_token` with an already-registered session secret returns the
duplicate error and leaves the store exactly as it was; since the store is
unchanged and the check deterministic, retrying with the same secret can
only fail again. -/
theorem add_token_duplicate_rejected (fc : FlowClient) (s : Store)
    (dpn st : String) (pid? pn? remark : Option String) (ie ve : Bool) (ic vc : Int)
    (new_id : Nat) (t : Token) (h : get_token_by_st s st = some t) :
    isErr (add_token fc s dpn st pid? pn? remark ie ve ic vc new_id).1 = true
    ∧ (add_token fc s dpn st pid? pn? remark ie ve ic vc new_id).2 = s := by
  unfold add_token
  rw [h]
  exact ⟨rfl, rfl⟩

/-- C9 witness: adding the secret of `blankTok` over `demoStore`. -/
theorem add_token_duplicate_rejected_witness :
    (add_token fcGood demoStore "Jan 01" "s1" none none none true true (-1) (-1) 2).2
      = demoStore :=
  (add_token_duplicate_rejected fcGood demoStore "Jan 01" "s1" none none none
    true true (-1) (-1) 2 blankTok (by rfl)).2

/-- C6: when no project id is supplied and the external `create_project`
call fails, `add_token` raises the typed project-creation error and the
store is exactly the one it started from: the project step precedes
persistence, so no credential row (and no token obtained by the earlier
successful exchange) is stored. -/
theorem add_token_project_failure_no_persist (fc : FlowClient) (s : Store)
    (dpn st : String) (pn? remark : Option String) (ie ve : Bool) (ic vc : Int)
    (new_id : Nat) (r : StToAtResult) (e : String)
    (hdup : get_token_by_st s st = none)
    (hex : fc.st_to_at st = .ok r)
    (hproj : fc.create_project st (pn?.getD dpn) = .error e) :
    add_token fc s dpn st none pn? remark ie ve ic vc new_id
      = (.error ("Project creation failed: " ++ e), s) := by
  unfold add_token
  rw [hdup]
  dsimp only
  rw [hex]
  dsimp only
  rw [hproj]

/-- C6 witness: concrete failing project creation over the empty store. -/
theorem add_token_project_failure_no_persist_witness :
    add_token fcNoProject emptyStore "Jan 01" "s1" none none none true true (-1) (-1) 1
      = (.error ("Project creation failed: " ++ "down"), emptyStore) :=
  add_token_project_failure_no_persist fcNoProject emptyStore "Jan 01" "s1" none none
    true true (-1) (-1) 1 ⟨"newAT", some 5000, {}⟩ "down" (by rfl) rfl rfl

/-- C10: for an id with no record, `is_at_valid` and `_refresh_at` both
return false with the store unchanged, no refresh and no exchange attempt —
the missing id is absorbed as a boolean, not raised or quarantined. -/
theorem missing_token_refresh_noop (fc : FlowClient) (s : Store) (now : Int)
    (token_id : Nat) (h : get_token s token_id = none) :
    is_at_valid fc s now token_id = ⟨false, s, false, false⟩
    ∧ refresh_at fc s token_id = ⟨false, s, false⟩ := by
  constructor
  · unfold is_at_valid
    rw [h]
  · unfold refresh_at
    rw [h]

/-- C10 witness: a missing id on a concrete store. -/
theorem missing_token_refresh_noop_witness :
    is_at_valid fcGood demoStore 0 99 = ⟨false, demoStore, false, false⟩ :=
  (missing_token_refresh_noop fcGood demoStore 0 99 (by rfl)).1

/-- C1 counterexample: a stored access token that is the empty string (so
not null) with an expiry far beyond the lead time. The claim's trigger
condition is false — the token is not null, the expiry is not null, and
1000000 − 0 ≥ 3600 — yet `is_at_valid` invokes a refresh, because the
source tests Python truthiness (`if not token.at`), which also fires on the
empty string. -/
theorem is_at_valid_null_counterexample :
    get_token emptyATStore 1 = some emptyATTok
    ∧ emptyATTok.«at» ≠ none
    ∧ emptyATTok.at_expires = some 1000000
    ∧ ¬ ((1000000 : Int) - 0 < 3600)
    ∧ (is_at_valid fcGood emptyATStore 0 1).refreshed = true := by
  refine ⟨rfl, by decide, rfl, by decide, rfl⟩

/-- C1 (amended): for an existing record, `is_at_valid` triggers a refresh
iff the stored access token is null **or empty**, or its expiry is null, or
less than 3600 seconds remain until the expiry; when it refreshes it
returns `_refresh_at`'s result and store, and otherwise it returns true
immediately with the store untouched and no refresh or exchange attempt. -/
theorem is_at_valid_refresh_trigger (fc : FlowClient) (s : Store) (now : Int)
    (token_id : Nat) (token : Token) (h : get_token s token_id = some token) :
    ((is_at_valid fc s now token_id).refreshed = true
      ↔ (strFalsy token.«at» = true ∨ token.at_expires = none
          ∨ ∃ e, token.at_expires = some e ∧ e - now < 3600))
    ∧ ((is_at_valid fc s now token_id).refreshed = true →
        is_at_valid fc s now token_id
          = ⟨(refresh_at fc s token_id).result, (refresh_at fc s token_id).store, true,
             (refresh_at fc s token_id).exchanged⟩)
    ∧ ((is_at_valid fc s now token_id).refreshed = false →
        is_at_valid fc s now token_id = ⟨true, s, false, false⟩) := by
  unfold is_at_valid
  rw [h]
  dsimp only
  by_cases hf : strFalsy token.«at» = true
  · rw [if_pos hf]
    exact ⟨⟨fun _ => Or.inl hf, fun _ => rfl⟩, fun _ => rfl, fun hc => by simp at hc⟩
  · rw [if_neg hf]
    cases hexp : token.at_expires with
    | none =>
        exact ⟨⟨fun _ => Or.inr (Or.inl rfl), fun _ => rfl⟩, fun _ => rfl,
          fun hc => by simp at hc⟩
    | some e =>
        dsimp only
        by_cases hlt : e - now < 3600
        · rw [if_pos hlt]
          exact ⟨⟨fun _ => Or.inr (Or.inr ⟨e, rfl, hlt⟩), fun _ => rfl⟩,
            fun _ => rfl, fun hc => by simp at hc⟩
        · rw [if_neg hlt]
          refine ⟨⟨fun hc => by simp at hc, fun hor => ?_⟩, fun hc => by simp at hc,
            fun _ => rfl⟩
          rcases hor with hfa | hnone | ⟨e2, he2, hlt2⟩
          · exact absurd hfa hf
          · exact absurd hnone (by simp)
          · cases he2
            exact absurd hlt2 hlt

/-- C1 witness for the amended theorem: the empty-string token triggers a
refresh. -/
theorem is_at_valid_refresh_trigger_witness :
    (is_at_valid fcGood emptyATStore 0 1).refreshed = true :=
  ((is_at_valid_refresh_trigger fcGood emptyATStore 0 1 emptyATTok (by rfl)).1).mpr
    (Or.inl (by decide))

/-- The scheduler cycle's trace of attempted ids is the whole snapshot
(minus empty-secret rows), independent of any exchange outcome: no entry's
failure removes later entries. -/
theorem sched_foldl_trace (fc : FlowClient) (l : List (Nat × String))
    (acc : Store × List Nat) :
    (l.foldl (sched_step fc) acc).2 = acc.2 ++ (l.filter hasSt).map Prod.fst := by
  induction l generalizing acc with
  | nil => simp
  | cons e tl ih =>
      by_cases he : e.2 = ""
      · have hs : hasSt e = false := by simp [hasSt, he]
        rw [List.foldl_cons, List.filter_cons, hs]
        have hstep : sched_step fc acc e = acc := by
          unfold sched_step
          rw [if_pos he]
        rw [hstep]
        exact ih acc
      · have hs : hasSt e = true := by simp [hasSt, he]
        rw [List.foldl_cons, List.filter_cons, hs]
        have hstep : sched_step fc acc e
            = (sched_refresh_one fc acc.1 e.1 e.2, acc.2 ++ [e.1]) := by
          unfold sched_step
          rw [if_neg he]
        rw [hstep, ih]
        simp

/-- An id-preserving row update that never turns `is_active` on cannot make
a credential active. -/
theorem token_is_active_mapTokensWithId_mono (s : Store) (token_id j : Nat)
    (f : Token → Token) (hid : ∀ t, (f t).id = t.id)
    (hac : ∀ t, (f t).is_active = true → t.is_active = true) :
    token_is_active (mapTokensWithId s token_id f) j = true →
      token_is_active s j = true := by
  unfold token_is_active
  rw [get_token_mapTokensWithId s token_id j f hid]
  cases hg : get_token s j with
  | none => simp
  | some t =>
      by_cases ht : t.id = token_id
      · simp only [Option.map_some', Option.getD_some, ht, if_pos]
        exact hac t
      · simp [ht]

/-- Contrapositive form: such an update preserves inactivity. -/
theorem token_is_active_mapTokensWithId_false (s : Store) (token_id j : Nat)
    (f : Token → Token) (hid : ∀ t, (f t).id = t.id)
    (hac : ∀ t, (f t).is_active = true → t.is_active = true)
    (h : token_is_active s j = false) :
    token_is_active (mapTokensWithId s token_id f) j = false := by
  cases h2 : token_is_active (mapTokensWithId s token_id f) j
  · rfl
  · have := token_is_active_mapTokensWithId_mono s token_id j f hid hac h2
    rw [h] at this
    exact this.symm

/-- Disabling a row leaves it (or its absence) inactive. -/
theorem token_is_active_disable (s : Store) (token_id : Nat) :
    token_is_active (disable_token s token_id) token_id = false := by
  unfold token_is_active disable_token
  rw [get_token_mapTokensWithId_self s token_id
    (fun t => { t with is_active := false }) (fun t => rfl)]
  cases get_token s token_id <;> rfl

/-- No operation inside the scheduler cycle re-activates a credential. -/
theorem sched_step_preserves_inactive (fc : FlowClient) (acc : Store × List Nat)
    (e : Nat × String) (j : Nat) (h : token_is_active acc.1 j = false) :
    token_is_active (sched_step fc acc e).1 j = false := by
  unfold sched_step
  by_cases he : e.2 = ""
  · rw [if_pos he]
    exact h
  · rw [if_neg he]
    dsimp only
    unfold sched_refresh_one
    cases fc.st_to_at e.2 with
    | error msg =>
        exact token_is_active_mapTokensWithId_false _ e.1 j _ (fun t => rfl)
          (fun t hv => by simp at hv) h
    | ok r =>
        dsimp only
        have h1 : token_is_active (db_update_token_at acc.1 e.1 r.access_token r.expires) j
            = false :=
          token_is_active_mapTokensWithId_false _ e.1 j _ (fun t => rfl)
            (fun t hv => hv) h
        cases fc.get_credits r.access_token with
        | error msg => exact h1
        | ok cr =>
            exact token_is_active_mapTokensWithId_false _ e.1 j _ (fun t => rfl)
              (fun t hv => hv) h1

/-- A credential inactive at any point of the cycle stays inactive to its
end. -/
theorem sched_foldl_preserves_inactive (fc : FlowClient) (l : List (Nat × String))
    (acc : Store × List Nat) (j : Nat) (h : token_is_active acc.1 j = false) :
    token_is_active (l.foldl (sched_step fc) acc).1 j = false := by
  induction l generalizing acc with
  | nil => exact h
  | cons e tl ih => exact ih _ (sched_step_preserves_inactive fc acc e j h)

/-- C7: an inactive credential is never attempted by the scheduler's cycle —
every id in the cycle's exchange trace belongs to a row that was active in
the snapshot — and `enable_token` sets the row active and resets its
consecutive-error counter while leaving all historical statistics (its own
and other credentials') unchanged. -/
theorem inactive_excluded_and_enable_resets (fc : FlowClient) (s : Store)
    (token_id : Nat) :
    (∀ j, j ∈ (update_tokens fc s).2 →
        ∃ t, t ∈ s.tokens ∧ t.id = j ∧ t.is_active = true)
    ∧ get_token (enable_token s token_id) token_id
        = Option.map (fun t => { t with is_active := true }) (get_token s token_id)
    ∧ lookupStats (enable_token s token_id).stats token_id
        = { lookupStats s.stats token_id with consecutive_error_count := 0 }
    ∧ (∀ j, j ≠ token_id →
        lookupStats (enable_token s token_id).stats j = lookupStats s.stats j) := by
  refine ⟨?_, ?_, ?_, ?_⟩
  · intro j hj
    unfold update_tokens at hj
    rw [sched_foldl_trace] at hj
    simp only [List.nil_append] at hj
    rcases List.mem_map.mp hj with ⟨e, he, rfl⟩
    have he2 : e ∈ scheduler_fetch_active s := List.mem_of_mem_filter he
    unfold scheduler_fetch_active at he2
    rcases List.mem_map.mp he2 with ⟨t, ht, rfl⟩
    refine ⟨t, List.mem_of_mem_filter ht, rfl, ?_⟩
    simpa using List.of_mem_filter ht
  · unfold enable_token
    dsimp only
    show get_token (mapTokensWithId s token_id (fun t => { t with is_active := true }))
        token_id = _
    rw [get_token_mapTokensWithId_self s token_id
      (fun t => { t with is_active := true }) (fun t => rfl)]
  · exact lookupStats_statsUpdate_self s.stats token_id resetConsec rfl
  · intro j hj
    exact lookupStats_statsUpdate_ne s.stats token_id j resetConsec hj

/-- C7 witness: enabling on a concrete store leaves another id's stats
unchanged. -/
theorem inactive_excluded_and_enable_resets_witness :
    lookupStats (enable_token demoStore 1).stats 2 = lookupStats demoStore.stats 2 :=
  (inactive_excluded_and_enable_resets fcGood demoStore 1).2.2.2 2 (by decide)

/-- C8: within one scheduler cycle, a credential whose exchange fails ends
the cycle disabled while the cycle's exchange trace still covers the whole
snapshot (one failure aborts nothing); and one failed cycle makes the
scheduler loop retry after the shortened backoff rather than exit. -/
theorem scheduler_cycle_isolation (fc : FlowClient) (s : Store) (token_id : Nat)
    (st msg : String)
    (hmem : (token_id, st) ∈ scheduler_fetch_active s)
    (hst : ¬ st = "")
    (hfail : fc.st_to_at st = .error msg) :
    token_is_active (update_tokens fc s).1 token_id = false
    ∧ (update_tokens fc s).2 = ((scheduler_fetch_active s).filter hasSt).map Prod.fst
    ∧ run_scheduler_iteration true .failed = .backoffThenContinue := by
  refine ⟨?_, ?_, rfl⟩
  · unfold update_tokens
    rcases List.append_of_mem hmem with ⟨l1, l2, hsplit⟩
    rw [hsplit, List.foldl_append, List.foldl_cons]
    apply sched_foldl_preserves_inactive
    unfold sched_step
    rw [if_neg hst]
    dsimp only
    unfold sched_refresh_one
    rw [hfail]
    exact token_is_active_disable _ token_id
  · unfold update_tokens
    rw [sched_foldl_trace]
    simp

/-- C8 witness: a concrete cycle over `demoStore` with a failing client
leaves credential 1 disabled. -/
theorem scheduler_cycle_isolation_witness :
    token_is_active (update_tokens fcBad demoStore).1 1 = false :=
  (scheduler_cycle_isolation fcBad demoStore 1 "s1" "boom" (by decide) (by decide)
    rfl).1

/-- Unfolding `countP` over a cons cell. -/
theorem countP_cons (f : List RAction → Bool) (a : List RAction)
    (ts : List (List RAction)) :
    countP f (a :: ts) = (if f a then 1 else 0) + countP f ts := by
  unfold countP
  rw [List.filter_cons]
  cases f a <;> simp [Nat.add_comm]

/-- `countP` is monotone in the predicate. -/
theorem countP_le (f g : List RAction → Bool) (hfg : ∀ p, f p = true → g p = true)
    (ts : List (List RAction)) : countP f ts ≤ countP g ts := by
  induction ts with
  | nil => simp [countP]
  | cons a tl ih =>
      rw [countP_cons, countP_cons]
      by_cases hfa : f a = true
      · rw [if_pos hfa, if_pos (hfg a hfa)]
        omega
      · rw [if_neg hfa]
        by_cases hga : g a = true
        · rw [if_pos hga]
          omega
        · rw [if_neg hga]
          omega

/-- A position satisfying the predicate witnesses a positive count. -/
theorem countP_pos (f : List RAction → Bool) (ts : List (List RAction)) (i : Nat)
    (p : List RAction) (h : ts.get? i = some p) (hp : f p = true) : 1 ≤ countP f ts := by
  induction ts generalizing i with
  | nil => simp at h
  | cons a tl ih =>
      rw [countP_cons]
      cases i with
      | zero =>
          injection h with h
          subst h
          rw [if_pos hp]
          omega
      | succ n =>
          have := ih n (by simpa using h)
          omega

/-- Two distinct positions satisfying the predicate witness a count of at
least two. -/
theorem countP_two (f : List RAction → Bool) (ts : List (List RAction)) (i j : Nat)
    (p q : List RAction) (hij : i ≠ j) (hi : ts.get? i = some p)
    (hj : ts.get? j = some q) (hp : f p = true) (hq : f q = true) :
    2 ≤ countP f ts := by
  induction ts generalizing i j with
  | nil => simp at hi
  | cons a tl ih =>
      rw [countP_cons]
      cases i with
      | zero =>
          cases j with
          | zero => exact absurd rfl hij
          | succ m =>
              injection hi with hi
              subst hi
              rw [if_pos hp]
              have := countP_pos f tl m q (by simpa using hj) hq
              omega
      | succ n =>
          cases j with
          | zero =>
              injection hj with hj
              subst hj
              rw [if_pos hq]
              have := countP_pos f tl n p (by simpa using hi) hp
              omega
          | succ m =>
              have := ih n m (fun hnm => hij (by rw [hnm])) (by simpa using hi)
                (by simpa using hj)
              omega

/-- How `countP` changes when one position is overwritten. -/
theorem countP_set (f : List RAction → Bool) (ts : List (List RAction)) (i : Nat)
    (x p : List RAction) (h : ts.get? i = some p) :
    countP f (ts.set i x) + (if f p then 1 else 0)
      = countP f ts + (if f x then 1 else 0) := by
  induction ts generalizing i with
  | nil => simp at h
  | cons a tl ih =>
      cases i with
      | zero =>
          injection h with h
          subst h
          show countP f (x :: tl) + _ = _
          rw [countP_cons, countP_cons]
          omega
      | succ n =>
          show countP f (a :: tl.set n x) + _ = _
          rw [countP_cons, countP_cons]
          have := ih n (by simpa using h)
          omega

/-- Reading back an overwritten position. -/
theorem tasks_get_set_self (ts : List (List RAction)) (i : Nat) (x p : List RAction)
    (h : ts.get? i = some p) : (ts.set i x).get? i = some x := by
  rw [List.get?_set_eq, h]
  rfl

/-- A predicate false at the replicated element yields count zero. -/
theorem countP_replicate_false (f : List RAction → Bool) (x : List RAction)
    (hx : f x = false) (n : Nat) : countP f (List.replicate n x) = 0 := by
  induction n with
  | zero => simp [countP]
  | succ m ih =>
      rw [List.replicate_succ, countP_cons, hx]
      simpa using ih

/-- The gate invariant holds initially for any pool of `_refresh_at`
tasks. -/
theorem cinv_init (n : Nat) : CInv ⟨none, List.replicate n refreshPath, 0⟩ := by
  refine ⟨?_, ?_, ?_⟩
  · intro p hp
    rw [List.eq_of_mem_replicate hp]
    decide
  · dsimp only
    rw [countP_replicate_false exchProg refreshPath (by decide) n]
  · dsimp only
    rw [countP_replicate_false lockedProg refreshPath (by decide) n]

/-- One step of any task preserves the gate invariant. -/
theorem cinv_step (sys sys' : CSys) (i : Nat) (hinv : CInv sys)
    (h : stepTask sys i = some sys') : CInv sys' := by
  obtain ⟨hsuff, hflight, hlock⟩ := hinv
  unfold stepTask at h
  cases hget : sys.tasks.get? i with
  | none =>
      rw [hget] at h
      simp at h
  | some prog =>
      rw [hget] at h
      cases prog with
      | nil => simp at h
      | cons a rest =>
          have hsuffp : suffixOk (a :: rest) = true := hsuff _ (List.get?_mem hget)
          cases a with
          | lockAcq =>
              have hrest : rest = [RAction.exStart, RAction.exEnd, RAction.lockRel] := by
                simp [suffixOk, lockedProg, refreshPath] at hsuffp
                exact hsuffp
              subst hrest
              cases hl : sys.lock with
              | some j =>
                  rw [hl] at h
                  simp at h
              | none =>
                  rw [hl] at h
                  rw [hl] at hlock
                  dsimp only at h hlock
                  injection h with h
                  subst h
                  have hset := countP_set exchProg sys.tasks i
                    [RAction.exStart, RAction.exEnd, RAction.lockRel] _ hget
                  have hsetl := countP_set lockedProg sys.tasks i
                    [RAction.exStart, RAction.exEnd, RAction.lockRel] _ hget
                  simp [exchProg, lockedProg, refreshPath] at hset hsetl
                  refine ⟨?_, ?_, ?_⟩
                  · intro p hp
                    rcases List.mem_or_eq_of_mem_set hp with hp2 | hp3
                    · exact hsuff p hp2
                    · rw [hp3]
                      decide
                  · dsimp only
                    omega
                  · dsimp only
                    refine ⟨by omega, ?_⟩
                    exact ⟨_, tasks_get_set_self sys.tasks i _ _ hget, by decide⟩
          | exStart =>
              have hrest : rest = [RAction.exEnd, RAction.lockRel] := by
                simp [suffixOk, lockedProg, refreshPath] at hsuffp
                exact hsuffp
              subst hrest
              have hlp : lockedProg
                  (RAction.exStart :: [RAction.exEnd, RAction.lockRel]) = true := by decide
              have hpos := countP_pos lockedProg sys.tasks i _ hget hlp
              cases hl : sys.lock with
              | none =>
                  rw [hl] at hlock
                  dsimp only at hlock
                  omega
              | some j =>
                  rw [hl] at hlock
                  dsimp only at hlock
                  obtain ⟨hcount, q, hq, hlq⟩ := hlock
                  have hij : i = j := by
                    by_contra hne
                    have := countP_two lockedProg sys.tasks i j _ q hne hget hq hlp hlq
                    omega
                  obtain rfl := hij
                  injection h with h
                  subst h
                  have hset := countP_set exchProg sys.tasks _
                    [RAction.exEnd, RAction.lockRel] _ hget
                  have hsetl := countP_set lockedProg sys.tasks _
                    [RAction.exEnd, RAction.lockRel] _ hget
                  simp [exchProg, lockedProg] at hset hsetl
                  refine ⟨?_, ?_, ?_⟩
                  · intro p hp
                    rcases List.mem_or_eq_of_mem_set hp with hp2 | hp3
                    · exact hsuff p hp2
                    · rw [hp3]
                      decide
                  · dsimp only
                    omega
                  · dsimp only
                    rw [hl]
                    dsimp only
                    refine ⟨by omega, ?_⟩
                    exact ⟨_, tasks_get_set_self sys.tasks _
                      [RAction.exEnd, RAction.lockRel] _ hget, by decide⟩
          | exEnd =>
              have hrest : rest = [RAction.lockRel] := by
                simp [suffixOk, lockedProg, refreshPath] at hsuffp
                exact hsuffp
              subst hrest
              have hlp : lockedProg (RAction.exEnd :: [RAction.lockRel]) = true := by decide
              have hep : exchProg (RAction.exEnd :: [RAction.lockRel]) = true := by decide
              have hpos := countP_pos lockedProg sys.tasks i _ hget hlp
              have hpose := countP_pos exchProg sys.tasks i _ hget hep
              cases hl : sys.lock with
              | none =>
                  rw [hl] at hlock
                  dsimp only at hlock
                  omega
              | some j =>
                  rw [hl] at hlock
                  dsimp only at hlock
                  obtain ⟨hcount, q, hq, hlq⟩ := hlock
                  have hij : i = j := by
                    by_contra hne
                    have := countP_two lockedProg sys.tasks i j _ q hne hget hq hlp hlq
                    omega
                  obtain rfl := hij
                  injection h with h
                  subst h
                  have hset := countP_set exchProg sys.tasks _ [RAction.lockRel] _ hget
                  have hsetl := countP_set lockedProg sys.tasks _ [RAction.lockRel] _ hget
                  simp [exchProg, lockedProg] at hset hsetl
                  refine ⟨?_, ?_, ?_⟩
                  · intro p hp
                    rcases List.mem_or_eq_of_mem_set hp with hp2 | hp3
                    · exact hsuff p hp2
                    · rw [hp3]
                      decide
                  · dsimp only
                    omega
                  · dsimp only
                    rw [hl]
                    dsimp only
                    refine ⟨by omega, ?_⟩
                    exact ⟨_, tasks_get_set_self sys.tasks _ [RAction.lockRel] _ hget,
                      by decide⟩
          | lockRel =>
              have hrest : rest = [] := by
                simp [suffixOk, lockedProg, refreshPath] at hsuffp
                exact hsuffp
              subst hrest
              cases hl : sys.lock with
              | none =>
                  rw [hl] at h
                  simp at h
              | some j =>
                  rw [hl] at h
                  rw [hl] at hlock
                  dsimp only at h hlock
                  obtain ⟨hcount, q, hq, hlq⟩ := hlock
                  by_cases hji : j = i
                  · rw [if_pos hji] at h
                    injection h with h
                    subst h
                    obtain rfl := hji
                    have hset := countP_set exchProg sys.tasks _ [] _ hget
                    have hsetl := countP_set lockedProg sys.tasks _ [] _ hget
                    simp [exchProg, lockedProg] at hset hsetl
                    refine ⟨?_, ?_, ?_⟩
                    · intro p hp
                      rcases List.mem_or_eq_of_mem_set hp with hp2 | hp3
                      · exact hsuff p hp2
                      · rw [hp3]
                        decide
                    · dsimp only
                      omega
                    · dsimp only
                      omega
                  · rw [if_neg hji] at h
                    simp at h

/-- The invariant bounds the number of in-flight exchanges by one. -/
theorem cinv_inFlight_le_one (sys : CSys) (h : CInv sys) : sys.inFlight ≤ 1 := by
  obtain ⟨hsuff, hflight, hlock⟩ := h
  have himp : ∀ p, exchProg p = true → lockedProg p = true := by
    intro p hp
    simp [exchProg] at hp
    rw [hp]
    decide
  have hle := countP_le exchProg lockedProg himp sys.tasks
  cases hl : sys.lock with
  | none =>
      rw [hl] at hlock
      dsimp only at hlock
      omega
  | some j =>
      rw [hl] at hlock
      dsimp only at hlock
      obtain ⟨hcount, _⟩ := hlock
      omega

/-- Any run from an invariant state keeps the invariant. -/
theorem cinv_run (sched : List Nat) : ∀ sys sys', CInv sys →
    runSched sys sched = some sys' → CInv sys' := by
  induction sched with
  | nil =>
      intro sys sys' h hr
      injection hr with hr
      exact hr ▸ h
  | cons i tl ih =>
      intro sys sys' h hr
      unfold runSched at hr
      cases hs : stepTask sys i with
      | none =>
          rw [hs] at hr
          simp at hr
      | some s1 =>
          rw [hs] at hr
          dsimp only [Option.bind] at hr
          exact ih s1 sys' (cinv_step sys s1 i h hs) hr

/-- C2 counterexample: one `_refresh_at` task and one scheduler-cycle task.
After the refresh task acquires the lock and starts its exchange, the
scheduler task — which takes no lock — starts its own, and the fake
client's concurrency counter reaches 2: the scheduler's refreshes are not
behind the pool-wide gate. -/
theorem refresh_lock_pool_counterexample :
    (runSched ⟨none, [refreshPath, schedPath], 0⟩ [0, 0, 1]).map (fun sys => sys.inFlight)
      = some 2 := by
  decide

/-- C2 (amended): refreshes that go through `TokenManager._refresh_at` are
serialized behind the pool-wide lock — in a pool of any number of
`_refresh_at` tasks, every schedule keeps at most one exchange in flight.
The scheduler's cycle, which exchanges outside this gate, breaks the
pool-wide bound (see the counterexample). -/
theorem refresh_lock_serialization (n : Nat) (sched : List Nat) (sys' : CSys)
    (h : runSched ⟨none, List.replicate n refreshPath, 0⟩ sched = some sys') :
    sys'.inFlight ≤ 1 :=
  cinv_inFlight_le_one sys' (cinv_run sched _ sys' (cinv_init n) h)

/-- C2 witness: a two-task pool after acquiring the lock and starting one
exchange. -/
theorem refresh_lock_serialization_witness :
    (⟨some 0, [[RAction.exEnd, RAction.lockRel], refreshPath], 1⟩ : CSys).inFlight ≤ 1 :=
  refresh_lock_serialization 2 [0, 0] _ (by decide)
